import Mathlib

set_option maxHeartbeats 1000000

namespace PmcCrawler

/-!
Shallow embedding of the PMC crawler (src/crawlers/pmc_crawler.py).

XML payloads are modelled as element trees: an element has a tag, an
optional text (lxml yields None for an element with no text, modelled as
`none`) and a list of child elements. `find_desc` models
`root.find(".//tag")` (first matching strict descendant in document
order), `find_child` models `elem.find("tag")` (first matching direct
child), `find_all_desc` models `findall(".//tag")`.
-/

structure XmlElem where
  tag : String
  text : Option String
  children : List XmlElem

mutual

/-- First element of the subtree rooted at one element carrying the
given tag, in document order (the element itself comes before its
descendants). -/
def find_elem (tag : String) : XmlElem → Option XmlElem
  | XmlElem.mk t x cs => if t = tag then some (XmlElem.mk t x cs) else find_list tag cs

/-- First element carrying the given tag across a forest, in document
order. -/
def find_list (tag : String) : List XmlElem → Option XmlElem
  | [] => none
  | c :: cs =>
    match find_elem tag c with
    | some r => some r
    | none => find_list tag cs

end

/-- Model of `elem.find(".//tag")` applied to the list of subtrees of
the root: first strict descendant with the given tag in document
order. -/
def find_desc (tag : String) (l : List XmlElem) : Option XmlElem :=
  find_list tag l

/-- Model of `elem.find("tag")`: first direct child with the given tag. -/
def find_child (tag : String) (e : XmlElem) : Option XmlElem :=
  e.children.find? (fun c => c.tag == tag)

mutual

/-- All elements of the subtree rooted at one element carrying the
given tag, in document order. -/
def all_elem (tag : String) : XmlElem → List XmlElem
  | XmlElem.mk t x cs => (if t = tag then [XmlElem.mk t x cs] else []) ++ all_list tag cs

/-- All elements carrying the given tag across a forest, in document
order. -/
def all_list (tag : String) : List XmlElem → List XmlElem
  | [] => []
  | c :: cs => all_elem tag c ++ all_list tag cs

end

/-- Model of `findall(".//tag")`: all matching descendants in document
order. -/
def find_all_desc (tag : String) (l : List XmlElem) : List XmlElem :=
  all_list tag l

/-- Python str-interpolation of a possibly-None text: `f"{x}"` renders
`None` as the string `"None"`. -/
def pyStr : Option String → String
  | some s => s
  | none => "None"

/-- Title extraction from the paper payload (pmc_crawler.py lines 69-74):
`root.find(".//article-title")`; if the element is present its `.text`
is used verbatim (possibly None), otherwise the sentinel
`"Title not found"`. -/
def extract_title (root : XmlElem) : Option String :=
  match find_desc "article-title" root.children with
  | some t => t.text
  | none => some "Title not found"

/-- Publication-date extraction (pmc_crawler.py lines 76-90):
`root.find(".//pub-date")`; if absent, the sentinel
`"Publication date not found"`. Otherwise the code evaluates the
f-string over `year.text`, `month.text`, `day.text`, which raises
exactly when one of the three sub-elements is missing (attribute access
on None); the except branch yields `year.text` when the year sub-element
exists and the sentinel `"unknown"` otherwise. -/
def extract_pub_date (root : XmlElem) : Option String :=
  match find_desc "pub-date" root.children with
  | none => some "Publication date not found"
  | some pd =>
    match find_child "year" pd, find_child "month" pd, find_child "day" pd with
    | some y, some m, some d => some (pyStr y.text ++ "-" ++ pyStr m.text ++ "-" ++ pyStr d.text)
    | some y, _, _ => y.text
    | none, _, _ => some "unknown"

/-- Body paragraphs: `root.findall(".//body//p")` (pmc_crawler.py lines
105-108): every `p` descendant of every `body` descendant of the root. -/
def body_paragraphs (root : XmlElem) : List XmlElem :=
  ((find_all_desc "body" root.children).map (fun b => find_all_desc "p" b.children)).flatten

/-- Metadata blob placed under the `metadataJson` key of a document
(the JSON serialization itself is immaterial to the claims, so the
structured value is kept). `publicationDate` is optional because the
extracted date can be Python None (year element present with no text). -/
structure DocMetadata where
  url : String
  publicationDate : Option String
  source : String
deriving DecidableEq

/-- One entry of the `section` list of a document; `text` may be None
(an empty paragraph element). -/
structure DocSection where
  text : Option String
deriving DecidableEq

/-- The document dict handed to `self.indexer.index_document`. `title`
is optional because `title.text` can be None for an empty title
element. -/
structure Document where
  documentId : String
  title : Option String
  description : String
  metadataJson : DocMetadata
  sections : List DocSection
deriving DecidableEq

/-- Paper document assembly (pmc_crawler.py lines 94-108). -/
def assemble_paper_document (pmc_id : String) (root : XmlElem) : Document :=
  { documentId := pmc_id
    title := extract_title root
    description := ""
    metadataJson :=
      { url := "https://www.ncbi.nlm.nih.gov/pmc/articles/PMC" ++ pmc_id ++ "/"
        publicationDate := extract_pub_date root
        source := "pmc" }
    sections := (body_paragraphs root).map (fun p => { text := p.text }) }

/-- One entry of a health topic's `site` list. -/
structure Site where
  title : String
  url : String
deriving DecidableEq

/-- The heterogeneous `also-called` field of a MedlinePlus health topic:
absent, a single string, or a list of strings (xmltodict yields a bare
value for a single occurrence and a list for repeats). -/
inductive AlsoCalled where
  | absent
  | single (s : String)
  | listOf (ss : List String)
deriving DecidableEq

/-- A MedlinePlus health-topic record, with the fields the crawler
reads. -/
structure HealthTopic where
  title : String
  also_called : AlsoCalled
  id : String
  url : String
  date_created : String
  full_summary : String
  meta_desc : String
  sites : List Site
deriving DecidableEq

/-- Python `str.lower()`, modelled as character-wise lowering over the
underlying character list. -/
def py_lower (s : String) : String :=
  String.mk (s.data.map Char.toLower)

/-- The `all_names` list built by `index_medline_plus` (lines 125-131):
the lowercased title followed by the lowercased synonyms, the synonym
field normalized from its three upstream shapes. -/
def all_names (ht : HealthTopic) : List String :=
  py_lower ht.title ::
    (match ht.also_called with
     | AlsoCalled.absent => []
     | AlsoCalled.single s => [py_lower s]
     | AlsoCalled.listOf ss => ss.map py_lower)

/-- The topic filter (line 132): `any([t.lower() in all_names for t in
topics])`. -/
def matches_topics (ht : HealthTopic) (topics : List String) : Bool :=
  topics.any (fun t => decide (py_lower t ∈ all_names ht))

/-- The metadata map passed to `index_url` for a site link (line 173). -/
structure UrlMetadata where
  url : String
  source : String
  title : String
deriving DecidableEq

/-- Site-link metadata: `{url: site_url, source: medline_plus, title:
site_title}`. -/
def site_url_metadata (s : Site) : UrlMetadata :=
  { url := s.url, source := "medline_plus", title := s.title }

/-- Health-topic document assembly (pmc_crawler.py lines 137-159);
`html_to_text` (from core.utils, opaque to the claims) is passed in as
a function. -/
def assemble_medline_document (html_to_text : String → String) (ht : HealthTopic) : Document :=
  { documentId := "medline-plus-" ++ ht.id
    title := some ht.title
    description := "medline information for " ++ ht.title
    metadataJson :=
      { url := ht.url
        publicationDate := some ht.date_created
        source := "pmc" }
    sections := [{ text := some ht.meta_desc }, { text := some (html_to_text ht.full_summary) }] }

/-- The raw HTTP response of a paper fetch: the status code and the
parse of its text by `etree.fromstring` (`none` when the text is not
well-formed XML, in which case `etree.fromstring` raises). -/
structure Payload where
  status : Nat
  body : Option XmlElem

/-- The external collaborators of one crawl invocation, as response
oracles: `search` models `Entrez.esearch` ID discovery for a topic
(`Except.error` = an exception raised upstream), `fetch` models the
efetch GET for one pmc id (`Except.error` = a transport exception),
`healthCatalog` models the GET + parse of the dated MedlinePlus feed,
`indexDoc`/`indexUrl` model the indexer adapter's boolean results, and
`htmlToText` stands for `core.utils.html_to_text`. -/
structure Env where
  search : String → Nat → Except String (List String)
  fetch : String → Except String Payload
  healthCatalog : Except String (List HealthTopic)
  indexDoc : Document → Bool
  indexUrl : String → UrlMetadata → Bool
  htmlToText : String → String

/-- Mutable crawler state: `crawled_pmc_ids` and `site_urls` are the
two dedup sets created in `__init__`; `next_lim` numbers the
`RateLimiter(max_calls=3, period=1)` instances allocated so far, so
each `RateLimiter(...)` constructor call yields a fresh instance id. -/
structure CrawlState where
  crawled_pmc_ids : List String
  site_urls : List String
  next_lim : Nat
deriving DecidableEq

/-- `max_calls` argument of every `RateLimiter` constructed by the
crawler. -/
def rate_limiter_max_calls : Nat := 3

/-- `period` argument of every `RateLimiter` constructed by the
crawler. -/
def rate_limiter_period : Nat := 1

/-- Observable external calls of one crawl, in order. Requests that go
through a rate limiter carry the id of the limiter instance they
acquired. -/
inductive Event where
  | searchCall (topic : String)
  | catalogFetch
  | paperFetch (pmc_id : String) (limiter : Nat)
  | paperIndex (doc : Document)
  | medlineIndex (doc : Document)
  | siteIndexUrl (url : String) (meta : UrlMetadata) (limiter : Nat)
deriving DecidableEq

/-- Which limiter instance, if any, an event acquired. -/
def limiterOf : Event → Option Nat
  | Event.paperFetch _ l => some l
  | Event.siteIndexUrl _ _ l => some l
  | _ => none

/-- The per-paper loop of `index_papers_by_topic` (lines 48-113) over
the deduplicated id list, with `lim` the rate-limiter instance created
at line 47. Per id: skip if already in `crawled_pmc_ids`; the GET is
issued under the limiter (a transport exception is caught and the id
skipped); a non-200 status skips the id; `etree.fromstring` on a
malformed body raises out of the loop (no enclosing try), modelled as
`Except.error`; otherwise the id is added to `crawled_pmc_ids` and the
assembled document is handed to `index_document`, whose boolean result
is only logged. -/
def processPapers (env : Env) (lim : Nat) : CrawlState → List String → List Event × Except String CrawlState
  | st, [] => ([], Except.ok st)
  | st, pmc_id :: rest =>
    if pmc_id ∈ st.crawled_pmc_ids then
      processPapers env lim st rest
    else
      match env.fetch pmc_id with
      | Except.error _ =>
        let r := processPapers env lim st rest
        (Event.paperFetch pmc_id lim :: r.1, r.2)
      | Except.ok p =>
        if p.status = 200 then
          match p.body with
          | none => ([Event.paperFetch pmc_id lim], Except.error "XMLSyntaxError")
          | some root =>
            let r := processPapers env lim
              { st with crawled_pmc_ids := pmc_id :: st.crawled_pmc_ids } rest
            (Event.paperFetch pmc_id lim ::
               Event.paperIndex (assemble_paper_document pmc_id root) :: r.1, r.2)
        else
          let r := processPapers env lim st rest
          (Event.paperFetch pmc_id lim :: r.1, r.2)

/-- `index_papers_by_topic` (lines 37-113): discovery via
`get_top_n_papers` is not wrapped in try, so an upstream error
propagates; the returned ids pass through `list(set(...))`; a fresh
`RateLimiter` is allocated; then the paper loop runs. -/
def index_papers_by_topic (env : Env) (topic : String) (n_papers : Nat) (st : CrawlState) :
    List Event × Except String CrawlState :=
  match env.search topic n_papers with
  | Except.error e => ([Event.searchCall topic], Except.error e)
  | Except.ok ids =>
    let r := processPapers env st.next_lim { st with next_lim := st.next_lim + 1 } ids.dedup
    (Event.searchCall topic :: r.1, r.2)

/-- The site-link loop at the end of `index_medline_plus` (lines
161-173): each site url not yet in `site_urls` is added to the set and
then indexed via `index_url` under the medline limiter; the boolean
result is assigned but never inspected. -/
def processSites (env : Env) (lim : Nat) : CrawlState → List Site → List Event × CrawlState
  | st, [] => ([], st)
  | st, s :: rest =>
    if s.url ∈ st.site_urls then
      processSites env lim st rest
    else
      let r := processSites env lim { st with site_urls := s.url :: st.site_urls } rest
      (Event.siteIndexUrl s.url (site_url_metadata s) lim :: r.1, r.2)

/-- The health-topic loop of `index_medline_plus` (lines 124-173): a
topic failing the filter is skipped; otherwise its document is handed to
`index_document`; on a `False` result the code logs and `continue`s —
skipping that topic's site links — and on `True` the site-link loop
runs. -/
def processHealthTopics (env : Env) (lim : Nat) (topics : List String) :
    CrawlState → List HealthTopic → List Event × CrawlState
  | st, [] => ([], st)
  | st, ht :: rest =>
    if matches_topics ht topics then
      let doc := assemble_medline_document env.htmlToText ht
      if env.indexDoc doc then
        let rs := processSites env lim st ht.sites
        let r := processHealthTopics env lim topics rs.2 rest
        (Event.medlineIndex doc :: rs.1 ++ r.1, r.2)
      else
        let r := processHealthTopics env lim topics st rest
        (Event.medlineIndex doc :: r.1, r.2)
    else
      processHealthTopics env lim topics st rest

/-- `index_medline_plus` (lines 115-173): the catalog feed GET is not
rate-limited and `raise_for_status()` makes a non-200 abort the stage
(`Except.error`); then a fresh `RateLimiter` is allocated and the
health-topic loop runs. -/
def index_medline_plus (env : Env) (topics : List String) (st : CrawlState) :
    List Event × Except String CrawlState :=
  match env.healthCatalog with
  | Except.error e => ([Event.catalogFetch], Except.error e)
  | Except.ok hts =>
    let r := processHealthTopics env st.next_lim topics { st with next_lim := st.next_lim + 1 } hts
    (Event.catalogFetch :: r.1, Except.ok r.2)

/-- The per-topic loop at the end of `crawl` (lines 183-184): no
try/except, so an error from `index_papers_by_topic` propagates and
ends the run. -/
def crawlTopics (env : Env) (n_papers : Nat) : CrawlState → List String → List Event × Except String CrawlState
  | st, [] => ([], Except.ok st)
  | st, t :: rest =>
    let r := index_papers_by_topic env t n_papers st
    match r.2 with
    | Except.error e => (r.1, Except.error e)
    | Except.ok st1 =>
      let r2 := crawlTopics env n_papers st1 rest
      (r.1 ++ r2.1, r2.2)

/-- `crawl` (lines 175-184): fresh dedup state, `index_medline_plus`
first (an error there ends the run), then the per-topic paper crawl. -/
def crawl (env : Env) (topics : List String) (n_papers : Nat) : List Event × Except String CrawlState :=
  let r := index_medline_plus env topics { crawled_pmc_ids := [], site_urls := [], next_lim := 0 }
  match r.2 with
  | Except.error e => (r.1, Except.error e)
  | Except.ok st1 =>
    let r2 := crawlTopics env n_papers st1 topics
    (r.1 ++ r2.1, r2.2)

/-- Does this event record a paper fetch for id `x`? -/
def isFetchOf (x : String) : Event → Bool
  | Event.paperFetch i _ => i == x
  | _ => false

/-- Does this event record an `index_document` call for a paper
document with documentId `x`? -/
def isIndexOf (x : String) : Event → Bool
  | Event.paperIndex d => d.documentId == x
  | _ => false

/-- Number of paper fetch calls for id `x` in a trace. -/
def countFetch (tr : List Event) (x : String) : Nat := tr.countP (isFetchOf x)

/-- Number of paper `index_document` calls for id `x` in a trace. -/
def countIndex (tr : List Event) (x : String) : Nat := tr.countP (isIndexOf x)

/-- Whether id `x` is returned by discovery for some topic of the run. -/
def discoveredIn (env : Env) (n : Nat) (x : String) (ts : List String) : Prop :=
  ∃ t ∈ ts, ∃ ids, env.search t n = Except.ok ids ∧ x ∈ ids

/-! Concrete fixtures used by witnesses and counterexamples. -/

/-- A minimal well-formed paper payload: no title, no date, no body. -/
def root0 : XmlElem := ⟨"article", none, []⟩

/-- A year element with text 2020. -/
def yearD : XmlElem := ⟨"year", some "2020", []⟩

/-- A month element with text 1. -/
def monthD : XmlElem := ⟨"month", some "1", []⟩

/-- A day element with text 2. -/
def dayD : XmlElem := ⟨"day", some "2", []⟩

/-- A pub-date element with full year/month/day sub-elements. -/
def pubDateD : XmlElem := ⟨"pub-date", none, [yearD, monthD, dayD]⟩

/-- A paper payload with a complete publication date. -/
def rootD : XmlElem := ⟨"article", none, [⟨"front", none, [pubDateD]⟩]⟩

/-- An article-title element that is present but has no text (lxml
`.text` is None). -/
def titleElem8 : XmlElem := ⟨"article-title", none, []⟩

/-- A paper payload whose title element exists but is empty. -/
def root8 : XmlElem := ⟨"article", none, [titleElem8]⟩

/-- Environment for the C2 counterexample: discovery fails for topic
`a` and would succeed for topic `b`. -/
def env2 : Env :=
  { search := fun t _ => if t = "a" then Except.error "boom" else Except.ok ["x"]
    fetch := fun _ => Except.ok ⟨200, some root0⟩
    healthCatalog := Except.ok []
    indexDoc := fun _ => true
    indexUrl := fun _ _ => true
    htmlToText := fun s => s }

/-- Environment for the C3 counterexample: two topics, one paper each,
all fetches succeed. -/
def env3 : Env :=
  { search := fun t _ => if t = "t1" then Except.ok ["a"] else Except.ok ["b"]
    fetch := fun _ => Except.ok ⟨200, some root0⟩
    healthCatalog := Except.ok []
    indexDoc := fun _ => true
    indexUrl := fun _ _ => true
    htmlToText := fun s => s }

/-- State with one allocated limiter and nothing crawled, for the C3
witness. -/
def stW3 : CrawlState := ⟨[], [], 0⟩

/-- Environment for the C4 witness: discovery returns a duplicated id
list, every fetch succeeds. -/
def env4 : Env :=
  { search := fun _ _ => Except.ok ["100", "100", "101"]
    fetch := fun _ => Except.ok ⟨200, some root0⟩
    healthCatalog := Except.ok []
    indexDoc := fun _ => true
    indexUrl := fun _ _ => true
    htmlToText := fun s => s }

/-- Environment for the C5 witness. -/
def env5 : Env :=
  { search := fun _ _ => Except.ok ["100"]
    fetch := fun _ => Except.ok ⟨200, some root0⟩
    healthCatalog := Except.ok []
    indexDoc := fun _ => false
    indexUrl := fun _ _ => true
    htmlToText := fun s => s }

/-- A health topic whose id collides with a paper id of the form
`medline-plus-1`. -/
def ht6 : HealthTopic := ⟨"diabetes", AlsoCalled.absent, "1", "u", "2020", "sum", "md", []⟩

/-- Environment for the C6 counterexample: the catalog holds `ht6` and
discovery returns the paper id `medline-plus-1`. -/
def env6 : Env :=
  { search := fun _ _ => Except.ok ["medline-plus-1"]
    fetch := fun _ => Except.ok ⟨200, some root0⟩
    healthCatalog := Except.ok [ht6]
    indexDoc := fun _ => true
    indexUrl := fun _ _ => true
    htmlToText := fun s => s }

/-- A health topic whose title matches the configured list but whose
single also-called string does not. -/
def ht7 : HealthTopic := ⟨"Diabetes", AlsoCalled.single "foo", "1", "u", "d", "s", "m", []⟩

/-- A site link attached to `ht9`. -/
def site9 : Site := ⟨"s9", "site9.example"⟩

/-- A matching health topic carrying one site link. -/
def ht9 : HealthTopic := ⟨"diabetes", AlsoCalled.absent, "9", "u9", "2020", "sum", "md", [site9]⟩

/-- Environment for the C9 counterexample: document indexing always
returns false. -/
def env9 : Env :=
  { search := fun _ _ => Except.ok []
    fetch := fun _ => Except.ok ⟨200, some root0⟩
    healthCatalog := Except.ok [ht9]
    indexDoc := fun _ => false
    indexUrl := fun _ _ => true
    htmlToText := fun s => s }

/-- Same as `env9` but document indexing succeeds. -/
def env9T : Env :=
  { env9 with indexDoc := fun _ => true }

/-! Helper lemmas about the loops. -/

/-- documentId of an assembled paper document is the raw pmc id. -/
theorem paper_doc_id (pmc_id : String) (root : XmlElem) :
    (assemble_paper_document pmc_id root).documentId = pmc_id := rfl

/-- Unfolding: empty paper list. -/
theorem pp_nil (env : Env) (lim : Nat) (st : CrawlState) :
    processPapers env lim st [] = ([], Except.ok st) := rfl

/-- Unfolding: an id already in the seen set is skipped with no events
and no state change. -/
theorem pp_skip (env : Env) (lim : Nat) (st : CrawlState) (pmc_id : String) (rest : List String)
    (h : pmc_id ∈ st.crawled_pmc_ids) :
    processPapers env lim st (pmc_id :: rest) = processPapers env lim st rest := by
  simp [processPapers, h]

/-- Unfolding: a transport error is caught; the id is skipped without
being marked seen and the loop continues. -/
theorem pp_fetch_err (env : Env) (lim : Nat) (st : CrawlState) (pmc_id : String)
    (rest : List String) (e : String)
    (h : pmc_id ∉ st.crawled_pmc_ids) (hf : env.fetch pmc_id = Except.error e) :
    processPapers env lim st (pmc_id :: rest) =
      (Event.paperFetch pmc_id lim :: (processPapers env lim st rest).1,
       (processPapers env lim st rest).2) := by
  simp [processPapers, h, hf]

/-- Unfolding: a non-200 status skips the id without marking it seen. -/
theorem pp_non200 (env : Env) (lim : Nat) (st : CrawlState) (pmc_id : String)
    (rest : List String) (p : Payload)
    (h : pmc_id ∉ st.crawled_pmc_ids) (hf : env.fetch pmc_id = Except.ok p)
    (hs : ¬ p.status = 200) :
    processPapers env lim st (pmc_id :: rest) =
      (Event.paperFetch pmc_id lim :: (processPapers env lim st rest).1,
       (processPapers env lim st rest).2) := by
  simp [processPapers, h, hf, hs]

/-- Unfolding: a 200 response with well-formed XML marks the id seen
and issues the index call, independently of the index result. -/
theorem pp_success (env : Env) (lim : Nat) (st : CrawlState) (pmc_id : String)
    (rest : List String) (p : Payload) (root : XmlElem)
    (h : pmc_id ∉ st.crawled_pmc_ids) (hf : env.fetch pmc_id = Except.ok p)
    (hs : p.status = 200) (hb : p.body = some root) :
    processPapers env lim st (pmc_id :: rest) =
      (Event.paperFetch pmc_id lim :: Event.paperIndex (assemble_paper_document pmc_id root) ::
         (processPapers env lim { st with crawled_pmc_ids := pmc_id :: st.crawled_pmc_ids } rest).1,
       (processPapers env lim { st with crawled_pmc_ids := pmc_id :: st.crawled_pmc_ids } rest).2) := by
  simp [processPapers, h, hf, hs, hb]

/-- Unfolding: malformed XML raises out of the loop. -/
theorem pp_abort (env : Env) (lim : Nat) (st : CrawlState) (pmc_id : String)
    (rest : List String) (p : Payload)
    (h : pmc_id ∉ st.crawled_pmc_ids) (hf : env.fetch pmc_id = Except.ok p)
    (hs : p.status = 200) (hb : p.body = none) :
    processPapers env lim st (pmc_id :: rest) =
      ([Event.paperFetch pmc_id lim], Except.error "XMLSyntaxError") := by
  simp [processPapers, h, hf, hs, hb]

/-- Counting through a cons cell. -/
theorem countFetch_cons (e : Event) (tr : List Event) (x : String) :
    countFetch (e :: tr) x = countFetch tr x + if isFetchOf x e = true then 1 else 0 :=
  List.countP_cons _ _ _

/-- Counting through a cons cell. -/
theorem countIndex_cons (e : Event) (tr : List Event) (x : String) :
    countIndex (e :: tr) x = countIndex tr x + if isIndexOf x e = true then 1 else 0 :=
  List.countP_cons _ _ _

/-- Counting through an append. -/
theorem countFetch_append (tr1 tr2 : List Event) (x : String) :
    countFetch (tr1 ++ tr2) x = countFetch tr1 x + countFetch tr2 x :=
  List.countP_append _ _ _

/-- Counting through an append. -/
theorem countIndex_append (tr1 tr2 : List Event) (x : String) :
    countIndex (tr1 ++ tr2) x = countIndex tr1 x + countIndex tr2 x :=
  List.countP_append _ _ _

/-- A successful paper loop leaves the limiter counter and site-url set
unchanged and only grows the seen set. -/
theorem pp_state_ok (env : Env) (lim : Nat) :
    ∀ (papers : List String) (st st' : CrawlState),
      (processPapers env lim st papers).2 = Except.ok st' →
      st'.next_lim = st.next_lim ∧ st'.site_urls = st.site_urls ∧
        ∀ x, x ∈ st.crawled_pmc_ids → x ∈ st'.crawled_pmc_ids := by
  intro papers
  induction papers with
  | nil =>
    intro st st' h
    rw [pp_nil] at h
    cases h
    exact ⟨rfl, rfl, fun x hx => hx⟩
  | cons pmc_id rest ih =>
    intro st st' h
    by_cases hmem : pmc_id ∈ st.crawled_pmc_ids
    · rw [pp_skip env lim st pmc_id rest hmem] at h
      exact ih st st' h
    · cases hf : env.fetch pmc_id with
      | error e =>
        rw [pp_fetch_err env lim st pmc_id rest e hmem hf] at h
        simp only at h
        exact ih st st' h
      | ok p =>
        by_cases hs : p.status = 200
        · cases hb : p.body with
          | none =>
            rw [pp_abort env lim st pmc_id rest p hmem hf hs hb] at h
            simp at h
          | some root =>
            rw [pp_success env lim st pmc_id rest p root hmem hf hs hb] at h
            simp only at h
            have h3 := ih _ st' h
            exact ⟨h3.1, h3.2.1, fun x hx => h3.2.2 x (List.mem_cons_of_mem _ hx)⟩
        · rw [pp_non200 env lim st pmc_id rest p hmem hf hs] at h
          simp only at h
          exact ih st st' h

/-- An id already in the seen set is neither fetched nor indexed by the
rest of the loop. -/
theorem pp_count_seen (env : Env) (lim : Nat) :
    ∀ (papers : List String) (st : CrawlState) (x : String),
      x ∈ st.crawled_pmc_ids →
      countFetch (processPapers env lim st papers).1 x = 0 ∧
        countIndex (processPapers env lim st papers).1 x = 0 := by
  intro papers
  induction papers with
  | nil =>
    intro st x hx
    rw [pp_nil]
    exact ⟨rfl, rfl⟩
  | cons pmc_id rest ih =>
    intro st x hx
    by_cases hmem : pmc_id ∈ st.crawled_pmc_ids
    · rw [pp_skip env lim st pmc_id rest hmem]
      exact ih st x hx
    · have hne : pmc_id ≠ x := fun hinv => hmem (hinv ▸ hx)
      cases hf : env.fetch pmc_id with
      | error e =>
        rw [pp_fetch_err env lim st pmc_id rest e hmem hf]
        simp only [countFetch_cons, countIndex_cons, isFetchOf, isIndexOf]
        simp [hne, (ih st x hx).1, (ih st x hx).2]
      | ok p =>
        by_cases hs : p.status = 200
        · cases hb : p.body with
          | none =>
            rw [pp_abort env lim st pmc_id rest p hmem hf hs hb]
            simp [countFetch_cons, countIndex_cons, countFetch, countIndex, isFetchOf, isIndexOf, hne]
          | some root =>
            rw [pp_success env lim st pmc_id rest p root hmem hf hs hb]
            have hx2 : x ∈ ({ st with crawled_pmc_ids := pmc_id :: st.crawled_pmc_ids } : CrawlState).crawled_pmc_ids :=
              List.mem_cons_of_mem _ hx
            simp only [countFetch_cons, countIndex_cons, isFetchOf, isIndexOf, paper_doc_id]
            simp [hne, (ih _ x hx2).1, (ih _ x hx2).2]
        · rw [pp_non200 env lim st pmc_id rest p hmem hf hs]
          simp only [countFetch_cons, countIndex_cons, isFetchOf, isIndexOf]
          simp [hne, (ih st x hx).1, (ih st x hx).2]

/-- An id not in the paper list is neither fetched nor indexed by the
loop over that list. -/
theorem pp_count_notmem (env : Env) (lim : Nat) :
    ∀ (papers : List String) (st : CrawlState) (x : String),
      x ∉ papers →
      countFetch (processPapers env lim st papers).1 x = 0 ∧
        countIndex (processPapers env lim st papers).1 x = 0 := by
  intro papers
  induction papers with
  | nil =>
    intro st x _
    rw [pp_nil]
    exact ⟨rfl, rfl⟩
  | cons pmc_id rest ih =>
    intro st x hx
    have hne : pmc_id ≠ x := fun hinv => hx (hinv ▸ List.mem_cons_self _ _)
    have hxr : x ∉ rest := fun hr => hx (List.mem_cons_of_mem _ hr)
    by_cases hmem : pmc_id ∈ st.crawled_pmc_ids
    · rw [pp_skip env lim st pmc_id rest hmem]
      exact ih st x hxr
    · cases hf : env.fetch pmc_id with
      | error e =>
        rw [pp_fetch_err env lim st pmc_id rest e hmem hf]
        simp only [countFetch_cons, countIndex_cons, isFetchOf, isIndexOf]
        simp [hne, (ih st x hxr).1, (ih st x hxr).2]
      | ok p =>
        by_cases hs : p.status = 200
        · cases hb : p.body with
          | none =>
            rw [pp_abort env lim st pmc_id rest p hmem hf hs hb]
            simp [countFetch_cons, countIndex_cons, countFetch, countIndex, isFetchOf, isIndexOf, hne]
          | some root =>
            rw [pp_success env lim st pmc_id rest p root hmem hf hs hb]
            simp only [countFetch_cons, countIndex_cons, isFetchOf, isIndexOf, paper_doc_id]
            simp [hne, (ih _ x hxr).1, (ih _ x hxr).2]
        · rw [pp_non200 env lim st pmc_id rest p hmem hf hs]
          simp only [countFetch_cons, countIndex_cons, isFetchOf, isIndexOf]
          simp [hne, (ih st x hxr).1, (ih st x hxr).2]

/-- An id not in the paper list is in the final seen set iff it was in
the initial one. -/
theorem pp_notmem_state (env : Env) (lim : Nat) :
    ∀ (papers : List String) (st st' : CrawlState) (x : String),
      x ∉ papers →
      (processPapers env lim st papers).2 = Except.ok st' →
      (x ∈ st'.crawled_pmc_ids ↔ x ∈ st.crawled_pmc_ids) := by
  intro papers
  induction papers with
  | nil =>
    intro st st' x _ h
    rw [pp_nil] at h
    cases h
    exact Iff.rfl
  | cons pmc_id rest ih =>
    intro st st' x hx h
    have hne : pmc_id ≠ x := fun hinv => hx (hinv ▸ List.mem_cons_self _ _)
    have hxr : x ∉ rest := fun hr => hx (List.mem_cons_of_mem _ hr)
    by_cases hmem : pmc_id ∈ st.crawled_pmc_ids
    · rw [pp_skip env lim st pmc_id rest hmem] at h
      exact ih st st' x hxr h
    · cases hf : env.fetch pmc_id with
      | error e =>
        rw [pp_fetch_err env lim st pmc_id rest e hmem hf] at h
        simp only at h
        exact ih st st' x hxr h
      | ok p =>
        by_cases hs : p.status = 200
        · cases hb : p.body with
          | none =>
            rw [pp_abort env lim st pmc_id rest p hmem hf hs hb] at h
            simp at h
          | some root =>
            rw [pp_success env lim st pmc_id rest p root hmem hf hs hb] at h
            simp only at h
            have h2 := ih _ st' x hxr h
            have hne2 : x ≠ pmc_id := fun hinv => hne hinv.symm
            rw [h2]
            simp [List.mem_cons, hne2]
        · rw [pp_non200 env lim st pmc_id rest p hmem hf hs] at h
          simp only at h
          exact ih st st' x hxr h

/-- If a good-fetch id occurs in the paper list and is not yet seen,
the completed loop fetches and indexes it exactly once and marks it
seen. -/
theorem pp_count_hit (env : Env) (lim : Nat) (p : Payload) (root : XmlElem) (x : String)
    (hf : env.fetch x = Except.ok p) (hs : p.status = 200) (hb : p.body = some root) :
    ∀ (papers : List String) (st st' : CrawlState),
      x ∈ papers →
      x ∉ st.crawled_pmc_ids →
      (processPapers env lim st papers).2 = Except.ok st' →
      countFetch (processPapers env lim st papers).1 x = 1 ∧
        countIndex (processPapers env lim st papers).1 x = 1 ∧
        x ∈ st'.crawled_pmc_ids := by
  intro papers
  induction papers with
  | nil =>
    intro st st' hx
    exact absurd hx (List.not_mem_nil x)
  | cons pmc_id rest ih =>
    intro st st' hx hmemx hok
    by_cases hid : pmc_id = x
    · subst hid
      rw [pp_success env lim st pmc_id rest p root hmemx hf hs hb] at hok ⊢
      simp only at hok
      have hx2 : pmc_id ∈ ({ st with crawled_pmc_ids := pmc_id :: st.crawled_pmc_ids } : CrawlState).crawled_pmc_ids :=
        List.mem_cons_self _ _
      have hrest := pp_count_seen env lim rest _ pmc_id hx2
      have hmono := pp_state_ok env lim rest _ st' hok
      simp only [countFetch_cons, countIndex_cons, isFetchOf, isIndexOf, paper_doc_id]
      simp [hrest.1, hrest.2, hmono.2.2 pmc_id hx2]
    · have hxr : x ∈ rest := by
        cases List.mem_cons.mp hx with
        | inl h => exact absurd h.symm hid
        | inr h => exact h
      have hne : pmc_id ≠ x := hid
      by_cases hmem : pmc_id ∈ st.crawled_pmc_ids
      · rw [pp_skip env lim st pmc_id rest hmem] at hok ⊢
        exact ih st st' hxr hmemx hok
      · cases hfid : env.fetch pmc_id with
        | error e =>
          rw [pp_fetch_err env lim st pmc_id rest e hmem hfid] at hok ⊢
          simp only at hok
          have h3 := ih st st' hxr hmemx hok
          simp only [countFetch_cons, countIndex_cons, isFetchOf, isIndexOf]
          simp [hne, h3.1, h3.2.1, h3.2.2]
        | ok q =>
          by_cases hqs : q.status = 200
          · cases hqb : q.body with
            | none =>
              rw [pp_abort env lim st pmc_id rest q hmem hfid hqs hqb] at hok
              simp at hok
            | some qroot =>
              rw [pp_success env lim st pmc_id rest q qroot hmem hfid hqs hqb] at hok ⊢
              simp only at hok
              have hmemx2 : x ∉ ({ st with crawled_pmc_ids := pmc_id :: st.crawled_pmc_ids } : CrawlState).crawled_pmc_ids := by
                simp only [List.mem_cons]
                rintro (h | h)
                · exact hne h.symm
                · exact hmemx h
              have h3 := ih _ st' hxr hmemx2 hok
              simp only [countFetch_cons, countIndex_cons, isFetchOf, isIndexOf, paper_doc_id]
              simp [hne, h3.1, h3.2.1, h3.2.2]
          · rw [pp_non200 env lim st pmc_id rest q hmem hfid hqs] at hok ⊢
            simp only at hok
            have h3 := ih st st' hxr hmemx hok
            simp only [countFetch_cons, countIndex_cons, isFetchOf, isIndexOf]
            simp [hne, h3.1, h3.2.1, h3.2.2]

/-- Unfolding: a discovery error propagates out of
`index_papers_by_topic` after the search call. -/
theorem ipbt_eq_err (env : Env) (topic : String) (n : Nat) (st : CrawlState) (e : String)
    (hs : env.search topic n = Except.error e) :
    index_papers_by_topic env topic n st = ([Event.searchCall topic], Except.error e) := by
  simp [index_papers_by_topic, hs]

/-- Unfolding: successful discovery dedups the ids, allocates a fresh
limiter and runs the paper loop. -/
theorem ipbt_eq_ok (env : Env) (topic : String) (n : Nat) (st : CrawlState) (ids : List String)
    (hs : env.search topic n = Except.ok ids) :
    index_papers_by_topic env topic n st =
      (Event.searchCall topic ::
         (processPapers env st.next_lim { st with next_lim := st.next_lim + 1 } ids.dedup).1,
       (processPapers env st.next_lim { st with next_lim := st.next_lim + 1 } ids.dedup).2) := by
  simp [index_papers_by_topic, hs]

/-- Unfolding: empty topic list. -/
theorem ct_nil (env : Env) (n : Nat) (st : CrawlState) :
    crawlTopics env n st [] = ([], Except.ok st) := rfl

/-- Unfolding: an error in one topic ends the topic loop. -/
theorem ct_cons_err (env : Env) (n : Nat) (st : CrawlState) (t : String) (rest : List String)
    (e : String) (h : (index_papers_by_topic env t n st).2 = Except.error e) :
    crawlTopics env n st (t :: rest) =
      ((index_papers_by_topic env t n st).1, Except.error e) := by
  simp [crawlTopics, h]

/-- Unfolding: a successful topic is followed by the rest of the topic
loop. -/
theorem ct_cons_ok (env : Env) (n : Nat) (st : CrawlState) (t : String) (rest : List String)
    (st1 : CrawlState) (h : (index_papers_by_topic env t n st).2 = Except.ok st1) :
    crawlTopics env n st (t :: rest) =
      ((index_papers_by_topic env t n st).1 ++ (crawlTopics env n st1 rest).1,
       (crawlTopics env n st1 rest).2) := by
  simp [crawlTopics, h]

/-- Unfolding: empty site list. -/
theorem ps_nil (env : Env) (lim : Nat) (st : CrawlState) :
    processSites env lim st [] = ([], st) := rfl

/-- Unfolding: an already-queued site url is skipped. -/
theorem ps_skip (env : Env) (lim : Nat) (st : CrawlState) (s : Site) (rest : List Site)
    (h : s.url ∈ st.site_urls) :
    processSites env lim st (s :: rest) = processSites env lim st rest := by
  simp [processSites, h]

/-- Unfolding: a new site url is added to the set and indexed. -/
theorem ps_new (env : Env) (lim : Nat) (st : CrawlState) (s : Site) (rest : List Site)
    (h : s.url ∉ st.site_urls) :
    processSites env lim st (s :: rest) =
      (Event.siteIndexUrl s.url (site_url_metadata s) lim ::
         (processSites env lim { st with site_urls := s.url :: st.site_urls } rest).1,
       (processSites env lim { st with site_urls := s.url :: st.site_urls } rest).2) := by
  simp [processSites, h]

/-- Unfolding: empty health-topic list. -/
theorem pht_nil (env : Env) (lim : Nat) (topics : List String) (st : CrawlState) :
    processHealthTopics env lim topics st [] = ([], st) := rfl

/-- Unfolding: a non-matching health topic is skipped entirely. -/
theorem pht_nomatch (env : Env) (lim : Nat) (topics : List String) (st : CrawlState)
    (ht : HealthTopic) (rest : List HealthTopic)
    (h : matches_topics ht topics = false) :
    processHealthTopics env lim topics st (ht :: rest) =
      processHealthTopics env lim topics st rest := by
  simp [processHealthTopics, h]

/-- Unfolding: a matching topic whose document indexing fails is logged
and `continue`d — its site links are skipped. -/
theorem pht_docfail (env : Env) (lim : Nat) (topics : List String) (st : CrawlState)
    (ht : HealthTopic) (rest : List HealthTopic)
    (hm : matches_topics ht topics = true)
    (hd : env.indexDoc (assemble_medline_document env.htmlToText ht) = false) :
    processHealthTopics env lim topics st (ht :: rest) =
      (Event.medlineIndex (assemble_medline_document env.htmlToText ht) ::
         (processHealthTopics env lim topics st rest).1,
       (processHealthTopics env lim topics st rest).2) := by
  simp [processHealthTopics, hm, hd]

/-- Unfolding: a matching topic whose document indexing succeeds also
gets its site links processed. -/
theorem pht_docok (env : Env) (lim : Nat) (topics : List String) (st : CrawlState)
    (ht : HealthTopic) (rest : List HealthTopic)
    (hm : matches_topics ht topics = true)
    (hd : env.indexDoc (assemble_medline_document env.htmlToText ht) = true) :
    processHealthTopics env lim topics st (ht :: rest) =
      (Event.medlineIndex (assemble_medline_document env.htmlToText ht) ::
         (processSites env lim st ht.sites).1 ++
           (processHealthTopics env lim topics (processSites env lim st ht.sites).2 rest).1,
       (processHealthTopics env lim topics (processSites env lim st ht.sites).2 rest).2) := by
  simp [processHealthTopics, hm, hd]

/-- Unfolding: a catalog-feed failure aborts the health-topic stage. -/
theorem imp_err (env : Env) (topics : List String) (st : CrawlState) (e : String)
    (h : env.healthCatalog = Except.error e) :
    index_medline_plus env topics st = ([Event.catalogFetch], Except.error e) := by
  simp [index_medline_plus, h]

/-- Unfolding: a successful catalog fetch allocates the medline limiter
and runs the health-topic loop. -/
theorem imp_ok (env : Env) (topics : List String) (st : CrawlState) (hts : List HealthTopic)
    (h : env.healthCatalog = Except.ok hts) :
    index_medline_plus env topics st =
      (Event.catalogFetch ::
         (processHealthTopics env st.next_lim topics { st with next_lim := st.next_lim + 1 } hts).1,
       Except.ok
         (processHealthTopics env st.next_lim topics { st with next_lim := st.next_lim + 1 } hts).2) := by
  simp [index_medline_plus, h]

/-- Unfolding: a health-topic stage failure ends the run. -/
theorem crawl_medline_err (env : Env) (topics : List String) (n : Nat) (e : String)
    (h : (index_medline_plus env topics ⟨[], [], 0⟩).2 = Except.error e) :
    crawl env topics n = ((index_medline_plus env topics ⟨[], [], 0⟩).1, Except.error e) := by
  simp [crawl, h]

/-- Unfolding: after the health-topic stage the per-topic loop runs. -/
theorem crawl_medline_ok (env : Env) (topics : List String) (n : Nat) (st1 : CrawlState)
    (h : (index_medline_plus env topics ⟨[], [], 0⟩).2 = Except.ok st1) :
    crawl env topics n =
      ((index_medline_plus env topics ⟨[], [], 0⟩).1 ++ (crawlTopics env n st1 topics).1,
       (crawlTopics env n st1 topics).2) := by
  simp [crawl, h]

/-- Every paper fetch event of one paper loop carries the limiter
instance the loop was given. -/
theorem pp_lims (env : Env) (lim : Nat) :
    ∀ (papers : List String) (st : CrawlState) (e : Event),
      e ∈ (processPapers env lim st papers).1 →
      ∀ i l, e = Event.paperFetch i l → l = lim := by
  intro papers
  induction papers with
  | nil =>
    intro st e he
    rw [pp_nil] at he
    exact absurd he (List.not_mem_nil e)
  | cons pmc_id rest ih =>
    intro st e he i l hee
    by_cases hmem : pmc_id ∈ st.crawled_pmc_ids
    · rw [pp_skip env lim st pmc_id rest hmem] at he
      exact ih st e he i l hee
    · cases hf : env.fetch pmc_id with
      | error er =>
        rw [pp_fetch_err env lim st pmc_id rest er hmem hf] at he
        rcases List.mem_cons.mp he with h | h
        · subst h
          injection hee with h1 h2
          exact h2.symm
        · exact ih st e h i l hee
      | ok p =>
        by_cases hs : p.status = 200
        · cases hb : p.body with
          | none =>
            rw [pp_abort env lim st pmc_id rest p hmem hf hs hb] at he
            rcases List.mem_cons.mp he with h | h
            · subst h
              injection hee with h1 h2
              exact h2.symm
            · exact absurd h (List.not_mem_nil e)
          | some root =>
            rw [pp_success env lim st pmc_id rest p root hmem hf hs hb] at he
            rcases List.mem_cons.mp he with h | h
            · subst h
              injection hee with h1 h2
              exact h2.symm
            · rcases List.mem_cons.mp h with h2 | h2
              · subst h2
                exact absurd hee (by simp)
              · exact ih _ e h2 i l hee
        · rw [pp_non200 env lim st pmc_id rest p hmem hf hs] at he
          rcases List.mem_cons.mp he with h | h
          · subst h
            injection hee with h1 h2
            exact h2.symm
          · exact ih st e h i l hee

/-- The paper loop never consults the index result: its outcome is the
same for any document-index oracle. -/
theorem pp_indexDoc_indep (env : Env) (d : Document → Bool) (lim : Nat) :
    ∀ (papers : List String) (st : CrawlState),
      processPapers { env with indexDoc := d } lim st papers =
        processPapers env lim st papers := by
  intro papers
  induction papers with
  | nil =>
    intro st
    rw [pp_nil, pp_nil]
  | cons pmc_id rest ih =>
    intro st
    by_cases hmem : pmc_id ∈ st.crawled_pmc_ids
    · rw [pp_skip _ lim st pmc_id rest hmem, pp_skip env lim st pmc_id rest hmem, ih]
    · have hf2 : ({ env with indexDoc := d } : Env).fetch = env.fetch := rfl
      cases hf : env.fetch pmc_id with
      | error e =>
        rw [pp_fetch_err _ lim st pmc_id rest e hmem (hf2 ▸ hf),
            pp_fetch_err env lim st pmc_id rest e hmem hf, ih]
      | ok p =>
        by_cases hs : p.status = 200
        · cases hb : p.body with
          | none =>
            rw [pp_abort _ lim st pmc_id rest p hmem (hf2 ▸ hf) hs hb,
                pp_abort env lim st pmc_id rest p hmem hf hs hb]
          | some root =>
            rw [pp_success _ lim st pmc_id rest p root hmem (hf2 ▸ hf) hs hb,
                pp_success env lim st pmc_id rest p root hmem hf hs hb, ih]
        · rw [pp_non200 _ lim st pmc_id rest p hmem (hf2 ▸ hf) hs,
              pp_non200 env lim st pmc_id rest p hmem hf hs, ih]

/-- The site-link loop touches neither the paper seen set nor the
limiter counter. -/
theorem ps_state (env : Env) (lim : Nat) :
    ∀ (sites : List Site) (st : CrawlState),
      (processSites env lim st sites).2.crawled_pmc_ids = st.crawled_pmc_ids ∧
        (processSites env lim st sites).2.next_lim = st.next_lim := by
  intro sites
  induction sites with
  | nil =>
    intro st
    rw [ps_nil]
    exact ⟨rfl, rfl⟩
  | cons s rest ih =>
    intro st
    by_cases h : s.url ∈ st.site_urls
    · rw [ps_skip env lim st s rest h]
      exact ih st
    · rw [ps_new env lim st s rest h]
      exact ih _

/-- The site-link loop emits only siteIndexUrl events, all tagged with
the medline limiter. -/
theorem ps_events (env : Env) (lim : Nat) :
    ∀ (sites : List Site) (st : CrawlState) (e : Event),
      e ∈ (processSites env lim st sites).1 →
      ∃ u m, e = Event.siteIndexUrl u m lim := by
  intro sites
  induction sites with
  | nil =>
    intro st e he
    rw [ps_nil] at he
    exact absurd he (List.not_mem_nil e)
  | cons s rest ih =>
    intro st e he
    by_cases h : s.url ∈ st.site_urls
    · rw [ps_skip env lim st s rest h] at he
      exact ih st e he
    · rw [ps_new env lim st s rest h] at he
      rcases List.mem_cons.mp he with h2 | h2
      · exact ⟨s.url, site_url_metadata s, h2⟩
      · exact ih _ e h2

/-- The health-topic loop touches neither the paper seen set nor the
limiter counter. -/
theorem pht_state (env : Env) (lim : Nat) (topics : List String) :
    ∀ (hts : List HealthTopic) (st : CrawlState),
      (processHealthTopics env lim topics st hts).2.crawled_pmc_ids = st.crawled_pmc_ids ∧
        (processHealthTopics env lim topics st hts).2.next_lim = st.next_lim := by
  intro hts
  induction hts with
  | nil =>
    intro st
    rw [pht_nil]
    exact ⟨rfl, rfl⟩
  | cons ht rest ih =>
    intro st
    cases hm : matches_topics ht topics with
    | false =>
      rw [pht_nomatch env lim topics st ht rest hm]
      exact ih st
    | true =>
      cases hd : env.indexDoc (assemble_medline_document env.htmlToText ht) with
      | false =>
        rw [pht_docfail env lim topics st ht rest hm hd]
        exact ih st
      | true =>
        rw [pht_docok env lim topics st ht rest hm hd]
        have h1 := ps_state env lim ht.sites st
        have h2 := ih (processSites env lim st ht.sites).2
        exact ⟨h2.1.trans h1.1, h2.2.trans h1.2⟩

/-- Every event of the health-topic loop is a medlineIndex event or a
siteIndexUrl event tagged with the medline limiter. -/
theorem pht_events (env : Env) (lim : Nat) (topics : List String) :
    ∀ (hts : List HealthTopic) (st : CrawlState) (e : Event),
      e ∈ (processHealthTopics env lim topics st hts).1 →
      (∃ doc, e = Event.medlineIndex doc) ∨ ∃ u m, e = Event.siteIndexUrl u m lim := by
  intro hts
  induction hts with
  | nil =>
    intro st e he
    rw [pht_nil] at he
    exact absurd he (List.not_mem_nil e)
  | cons ht rest ih =>
    intro st e he
    cases hm : matches_topics ht topics with
    | false =>
      rw [pht_nomatch env lim topics st ht rest hm] at he
      exact ih st e he
    | true =>
      cases hd : env.indexDoc (assemble_medline_document env.htmlToText ht) with
      | false =>
        rw [pht_docfail env lim topics st ht rest hm hd] at he
        rcases List.mem_cons.mp he with h | h
        · exact Or.inl ⟨_, h⟩
        · exact ih st e h
      | true =>
        rw [pht_docok env lim topics st ht rest hm hd] at he
        rcases List.mem_cons.mp he with h | h
        · exact Or.inl ⟨_, h⟩
        · rcases List.mem_append.mp h with h2 | h2
          · exact Or.inr (ps_events env lim ht.sites st e h2)
          · exact ih _ e h2

/-- The health-topic stage issues no paper fetch and no paper index
call. -/
theorem pht_counts (env : Env) (lim : Nat) (topics : List String)
    (hts : List HealthTopic) (st : CrawlState) (x : String) :
    countFetch (processHealthTopics env lim topics st hts).1 x = 0 ∧
      countIndex (processHealthTopics env lim topics st hts).1 x = 0 := by
  constructor
  · rw [countFetch, List.countP_eq_zero]
    intro e he
    rcases pht_events env lim topics hts st e he with ⟨doc, h⟩ | ⟨u, m, h⟩ <;> subst h <;>
      simp [isFetchOf]
  · rw [countIndex, List.countP_eq_zero]
    intro e he
    rcases pht_events env lim topics hts st e he with ⟨doc, h⟩ | ⟨u, m, h⟩ <;> subst h <;>
      simp [isIndexOf]

/-- Counting one good-fetch id across the whole topic loop: an id
already seen is never fetched again; an id not yet seen is fetched and
indexed exactly once when some topic discovers it, and never when no
topic does. -/
theorem ct_counts (env : Env) (n : Nat) (x : String) (p : Payload) (root : XmlElem)
    (hf : env.fetch x = Except.ok p) (hs : p.status = 200) (hb : p.body = some root) :
    ∀ (ts : List String) (st st2 : CrawlState),
      (crawlTopics env n st ts).2 = Except.ok st2 →
      (x ∈ st.crawled_pmc_ids →
         countFetch (crawlTopics env n st ts).1 x = 0 ∧
           countIndex (crawlTopics env n st ts).1 x = 0 ∧ x ∈ st2.crawled_pmc_ids) ∧
      (x ∉ st.crawled_pmc_ids → discoveredIn env n x ts →
         countFetch (crawlTopics env n st ts).1 x = 1 ∧
           countIndex (crawlTopics env n st ts).1 x = 1) ∧
      (x ∉ st.crawled_pmc_ids → ¬ discoveredIn env n x ts →
         countFetch (crawlTopics env n st ts).1 x = 0 ∧
           countIndex (crawlTopics env n st ts).1 x = 0 ∧ x ∉ st2.crawled_pmc_ids) := by
  intro ts
  induction ts with
  | nil =>
    intro st st2 hok
    rw [ct_nil] at hok ⊢
    cases hok
    refine ⟨fun hx => ⟨rfl, rfl, hx⟩, fun hx hd => ?_, fun hx _ => ⟨rfl, rfl, hx⟩⟩
    rcases hd with ⟨t, ht, _⟩
    exact absurd ht (List.not_mem_nil t)
  | cons t rest ih =>
    intro st st2 hok
    cases hsearch : env.search t n with
    | error e =>
      have h1 : (index_papers_by_topic env t n st).2 = Except.error e := by
        rw [ipbt_eq_err env t n st e hsearch]
      rw [ct_cons_err env n st t rest e h1] at hok
      simp at hok
    | ok ids =>
      have hip := ipbt_eq_ok env t n st ids hsearch
      cases hpp : (processPapers env st.next_lim { st with next_lim := st.next_lim + 1 } ids.dedup).2 with
      | error e =>
        have h1 : (index_papers_by_topic env t n st).2 = Except.error e := by
          rw [hip]
          exact hpp
        rw [ct_cons_err env n st t rest e h1] at hok
        simp at hok
      | ok st1 =>
        have h1 : (index_papers_by_topic env t n st).2 = Except.ok st1 := by
          rw [hip]
          exact hpp
        rw [ct_cons_ok env n st t rest st1 h1] at hok ⊢
        simp only at hok
        have IH := ih st1 st2 hok
        rw [countFetch_append, countIndex_append, hip]
        simp only [countFetch_cons, countIndex_cons, isFetchOf, isIndexOf]
        have hsc : (if false = true then 1 else 0) = 0 := rfl
        refine ⟨?_, ?_, ?_⟩
        · intro hx
          have hx1 : x ∈ ({ st with next_lim := st.next_lim + 1 } : CrawlState).crawled_pmc_ids := hx
          have hc := pp_count_seen env st.next_lim ids.dedup { st with next_lim := st.next_lim + 1 } x hx1
          have hmono := pp_state_ok env st.next_lim ids.dedup { st with next_lim := st.next_lim + 1 } st1 hpp
          have hx2 : x ∈ st1.crawled_pmc_ids := hmono.2.2 x hx1
          have hI := IH.1 hx2
          simp [hc.1, hc.2, hI.1, hI.2.1, hI.2.2]
        · intro hx hd
          have hx1 : x ∉ ({ st with next_lim := st.next_lim + 1 } : CrawlState).crawled_pmc_ids := hx
          by_cases hxids : x ∈ ids
          · have hxd : x ∈ ids.dedup := List.mem_dedup.mpr hxids
            have hc := pp_count_hit env st.next_lim p root x hf hs hb ids.dedup
              { st with next_lim := st.next_lim + 1 } st1 hxd hx1 hpp
            have hI := IH.1 hc.2.2
            simp [hc.1, hc.2.1, hI.1, hI.2.1]
          · have hxd : x ∉ ids.dedup := fun h => hxids (List.mem_dedup.mp h)
            have hc := pp_count_notmem env st.next_lim ids.dedup { st with next_lim := st.next_lim + 1 } x hxd
            have hst := pp_notmem_state env st.next_lim ids.dedup { st with next_lim := st.next_lim + 1 } st1 x hxd hpp
            have hx2 : x ∉ st1.crawled_pmc_ids := fun h => hx1 (hst.mp h)
            have hdrest : discoveredIn env n x rest := by
              rcases hd with ⟨u, hu, ids2, hsearch2, hx3⟩
              rcases List.mem_cons.mp hu with h | h
              · subst h
                rw [hsearch] at hsearch2
                injection hsearch2 with h2
                exact absurd (h2 ▸ hx3) hxids
              · exact ⟨u, h, ids2, hsearch2, hx3⟩
            have hI := (IH.2.1) hx2 hdrest
            simp [hc.1, hc.2, hI.1, hI.2]
        · intro hx hd
          have hx1 : x ∉ ({ st with next_lim := st.next_lim + 1 } : CrawlState).crawled_pmc_ids := hx
          have hxids : x ∉ ids := fun h =>
            hd ⟨t, List.mem_cons_self t rest, ids, hsearch, h⟩
          have hxd : x ∉ ids.dedup := fun h => hxids (List.mem_dedup.mp h)
          have hc := pp_count_notmem env st.next_lim ids.dedup { st with next_lim := st.next_lim + 1 } x hxd
          have hst := pp_notmem_state env st.next_lim ids.dedup { st with next_lim := st.next_lim + 1 } st1 x hxd hpp
          have hx2 : x ∉ st1.crawled_pmc_ids := fun h => hx1 (hst.mp h)
          have hdrest : ¬ discoveredIn env n x rest := fun hdr => by
            rcases hdr with ⟨u, hu, ids2, hsearch2, hx3⟩
            exact hd ⟨u, List.mem_cons_of_mem t hu, ids2, hsearch2, hx3⟩
          have hI := (IH.2.2) hx2 hdrest
          simp [hc.1, hc.2, hI.1, hI.2.1, hI.2.2]

/-- A successful health-topic stage leaves the paper seen set
unchanged. -/
theorem imp_state (env : Env) (topics : List String) (st : CrawlState) (trM : List Event)
    (stM : CrawlState) (h : index_medline_plus env topics st = (trM, Except.ok stM)) :
    stM.crawled_pmc_ids = st.crawled_pmc_ids := by
  cases hcat : env.healthCatalog with
  | error e =>
    rw [imp_err env topics st e hcat] at h
    simp at h
  | ok hts =>
    rw [imp_ok env topics st hts hcat] at h
    have h2 := congrArg Prod.snd h
    simp at h2
    rw [← h2]
    exact (pht_state env st.next_lim topics hts { st with next_lim := st.next_lim + 1 }).1

/-- The health-topic stage issues no paper fetch and no paper index
call. -/
theorem imp_counts (env : Env) (topics : List String) (st : CrawlState) (trM : List Event)
    (rM : Except String CrawlState) (x : String)
    (h : index_medline_plus env topics st = (trM, rM)) :
    countFetch trM x = 0 ∧ countIndex trM x = 0 := by
  cases hcat : env.healthCatalog with
  | error e =>
    rw [imp_err env topics st e hcat] at h
    have h1 := congrArg Prod.fst h
    simp at h1
    rw [← h1]
    exact ⟨rfl, rfl⟩
  | ok hts =>
    rw [imp_ok env topics st hts hcat] at h
    have h1 := congrArg Prod.fst h
    simp at h1
    rw [← h1]
    have hc := pht_counts env st.next_lim topics hts { st with next_lim := st.next_lim + 1 } x
    simp [countFetch_cons, countIndex_cons, isFetchOf, isIndexOf, hc.1, hc.2]

/-! Claim theorems. -/

/-- C1: publication-date extraction follows the sentinel rules and is
total (the Lean function `extract_pub_date` is total, so extraction
never raises): no pub-date element yields the sentinel
`Publication date not found`; when a pub-date element exists,
composition succeeds exactly when year, month and day sub-elements are
all present, yielding `YEAR-MONTH-DAY`; when composition fails but a
year sub-element exists the result is the year text alone; when
composition fails and no year sub-element exists the result is the
distinct sentinel `unknown`. -/
theorem claim_C1_pub_date_sentinels (root : XmlElem) :
    (find_desc "pub-date" root.children = none →
       extract_pub_date root = some "Publication date not found") ∧
    (∀ pd, find_desc "pub-date" root.children = some pd →
       (∀ y m d ys ms ds, find_child "year" pd = some y → find_child "month" pd = some m →
          find_child "day" pd = some d → y.text = some ys → m.text = some ms →
          d.text = some ds →
          extract_pub_date root = some (ys ++ "-" ++ ms ++ "-" ++ ds)) ∧
       (∀ y, find_child "year" pd = some y →
          (find_child "month" pd = none ∨ find_child "day" pd = none) →
          extract_pub_date root = y.text) ∧
       (find_child "year" pd = none → extract_pub_date root = some "unknown")) := by
  constructor
  · intro h
    simp [extract_pub_date, h]
  · intro pd hpd
    refine ⟨?_, ?_, ?_⟩
    · intro y m d ys ms ds hy hm hd hys hms hds
      simp [extract_pub_date, hpd, hy, hm, hd, pyStr, hys, hms, hds]
    · intro y hy hmd
      rcases hmd with hm | hd
      · simp [extract_pub_date, hpd, hy, hm]
      · cases hm : find_child "month" pd with
        | none => simp [extract_pub_date, hpd, hy, hm]
        | some m => simp [extract_pub_date, hpd, hy, hm, hd]
    · intro hy
      cases hm : find_child "month" pd with
      | none =>
        cases hd : find_child "day" pd with
        | none => simp [extract_pub_date, hpd, hy, hm, hd]
        | some d => simp [extract_pub_date, hpd, hy, hm, hd]
      | some m =>
        cases hd : find_child "day" pd with
        | none => simp [extract_pub_date, hpd, hy, hm, hd]
        | some d => simp [extract_pub_date, hpd, hy, hm, hd]

/-- C1 witness: at a payload with a complete date the theorem yields
the composed `YEAR-MONTH-DAY` string. -/
theorem claim_C1_witness : extract_pub_date rootD = some "2020-1-2" :=
  ((claim_C1_pub_date_sentinels rootD).2 pubDateD rfl).1
    yearD monthD dayD "2020" "1" "2" rfl rfl rfl rfl rfl rfl

/-- C6 counterexample: paper documentIds carry no per-source prefix, so
a crawl in which discovery returns the paper id `medline-plus-1` while
the catalog holds health topic id `1` hands the indexer two documents
with the same documentId. -/
theorem claim_C6_counterexample :
    Event.medlineIndex (assemble_medline_document (fun s => s) ht6) ∈ (crawl env6 ["diabetes"] 1).1 ∧
    Event.paperIndex (assemble_paper_document "medline-plus-1" root0) ∈ (crawl env6 ["diabetes"] 1).1 ∧
    (assemble_medline_document (fun s => s) ht6).documentId =
      (assemble_paper_document "medline-plus-1" root0).documentId :=
  ⟨by decide, by decide, rfl⟩

/-- C6 amended: health-topic documents are namespaced with the
`medline-plus-` prefix, but paper documents use the bare pmc id as
documentId; the two never collide only under the assumption that no
pmc id is itself of the form `medline-plus-` followed by a suffix. -/
theorem claim_C6_doc_id_amended (pmc_id : String) (root : XmlElem) (f : String → String)
    (ht : HealthTopic) :
    (assemble_medline_document f ht).documentId = "medline-plus-" ++ ht.id ∧
    (assemble_paper_document pmc_id root).documentId = pmc_id ∧
    ((∀ s, pmc_id ≠ "medline-plus-" ++ s) →
       (assemble_paper_document pmc_id root).documentId ≠
         (assemble_medline_document f ht).documentId) := by
  refine ⟨rfl, rfl, ?_⟩
  intro h heq
  exact h ht.id heq

/-- C6 witness: a numeric pmc id cannot equal any prefixed health-topic
documentId. -/
theorem claim_C6_witness :
    (assemble_paper_document "100" root0).documentId ≠
      (assemble_medline_document (fun s => s) ht6).documentId :=
  (claim_C6_doc_id_amended "100" root0 (fun s => s) ht6).2.2 (by
    intro s h
    have hlen := congrArg String.length h
    rw [String.length_append] at hlen
    rw [show ("100" : String).length = 3 from rfl,
        show ("medline-plus-" : String).length = 13 from rfl] at hlen
    omega)

/-- C7 counterexample: a health topic whose also-called field is the
single string `foo` matches the configured list `[diabetes]` because
its title matches, even though no configured topic equals `foo`
lowercased — refuting the claimed iff. -/
theorem claim_C7_counterexample :
    matches_topics ht7 ["diabetes"] = true ∧
    (["diabetes"].any (fun t => py_lower t == py_lower "foo")) = false := by
  constructor
  · decide
  · decide

/-- C7 amended: for an also-called field holding the single string `s`,
the filter matches iff some configured topic lowercased equals the
lowercased title or the lowercased `s`; and the decision is identical
when the field is the one-element list `[s]` instead of the bare
string (all shapes normalize through `all_names`). -/
theorem claim_C7_filter_amended (title s hid hurl dc fs md : String) (sites : List Site)
    (topics : List String) :
    (matches_topics ⟨title, AlsoCalled.single s, hid, hurl, dc, fs, md, sites⟩ topics = true ↔
       ∃ t ∈ topics, py_lower t = py_lower title ∨ py_lower t = py_lower s) ∧
    matches_topics ⟨title, AlsoCalled.single s, hid, hurl, dc, fs, md, sites⟩ topics =
      matches_topics ⟨title, AlsoCalled.listOf [s], hid, hurl, dc, fs, md, sites⟩ topics := by
  constructor
  · simp [matches_topics, all_names, List.any_eq_true]
  · rfl

/-- C8 counterexample: a payload whose article-title element exists but
has no text produces a document whose title field is None — downstream
does receive a missing/null title, refuting the always-populated
claim. -/
theorem claim_C8_counterexample :
    find_desc "article-title" root8.children = some titleElem8 ∧
    (assemble_paper_document "1" root8).title = none :=
  ⟨rfl, rfl⟩

/-- C8 amended: the title is the text of the first title element when
one exists — which is None when that element has no text, and this None
propagates into the assembled document — and the fixed sentinel
`Title not found` exactly when no title element exists. -/
theorem claim_C8_title_amended (root : XmlElem) :
    (find_desc "article-title" root.children = none →
       extract_title root = some "Title not found") ∧
    (∀ t, find_desc "article-title" root.children = some t →
       extract_title root = t.text) ∧
    (∀ pmc_id, (assemble_paper_document pmc_id root).title = extract_title root) := by
  refine ⟨?_, ?_, fun _ => rfl⟩
  · intro h
    simp [extract_title, h]
  · intro t ht
    simp [extract_title, ht]

/-- C8 witness: at the payload with an empty title element the theorem
yields that element's (absent) text. -/
theorem claim_C8_witness : extract_title root8 = titleElem8.text :=
  (claim_C8_title_amended root8).2.1 titleElem8 rfl

/-- C2 counterexample: a discovery error for topic `a` aborts the whole
crawl — topic `b` is never searched, fetched or indexed, although its
discovery would have succeeded. -/
theorem claim_C2_counterexample :
    crawl env2 ["a", "b"] 1 = ([Event.catalogFetch, Event.searchCall "a"], Except.error "boom") ∧
    env2.search "b" 1 = Except.ok ["x"] :=
  ⟨rfl, rfl⟩

/-- C2 amended: an error raised during ID discovery for a topic is not
caught anywhere — it propagates out of `index_papers_by_topic` and out
of the orchestrator loop, so the whole run ends with that error and no
later topic is processed; only per-item fetch transport errors are
caught. -/
theorem claim_C2_discovery_error_amended (env : Env) (n : Nat) (t : String)
    (rest : List String) (e : String) (trM : List Event) (stM : CrawlState)
    (hs : env.search t n = Except.error e)
    (hm : index_medline_plus env (t :: rest) ⟨[], [], 0⟩ = (trM, Except.ok stM)) :
    crawl env (t :: rest) n = (trM ++ [Event.searchCall t], Except.error e) := by
  have h2 : (index_medline_plus env (t :: rest) ⟨[], [], 0⟩).2 = Except.ok stM := by
    rw [hm]
  rw [crawl_medline_ok env (t :: rest) n stM h2]
  have h3 : (index_papers_by_topic env t n stM).2 = Except.error e := by
    rw [ipbt_eq_err env t n stM e hs]
  rw [ct_cons_err env n stM t rest e h3, ipbt_eq_err env t n stM e hs, hm]

/-- C2 witness: the amended theorem applied to the concrete aborting
run. -/
theorem claim_C2_witness :
    crawl env2 ["a", "b"] 1 = ([Event.catalogFetch] ++ [Event.searchCall "a"], Except.error "boom") :=
  claim_C2_discovery_error_amended env2 1 "a" ["b"] "boom" [Event.catalogFetch] ⟨[], [], 1⟩ rfl rfl

/-- C3 counterexample: one crawl issues outbound requests through two
different rate-limiter instances (instance 1 for topic t1, instance 2
for topic t2), and the catalog fetch passes through none — there is no
single shared limiter instance covering all fetch call sites. -/
theorem claim_C3_counterexample :
    (crawl env3 ["t1", "t2"] 1).1 =
      [Event.catalogFetch, Event.searchCall "t1", Event.paperFetch "a" 1,
       Event.paperIndex (assemble_paper_document "a" root0), Event.searchCall "t2",
       Event.paperFetch "b" 2, Event.paperIndex (assemble_paper_document "b" root0)] ∧
    limiterOf (Event.paperFetch "a" 1) = some 1 ∧
    limiterOf (Event.paperFetch "b" 2) = some 2 ∧
    limiterOf Event.catalogFetch = none ∧
    (1 : Nat) ≠ 2 :=
  ⟨rfl, rfl, rfl, rfl, by decide⟩

/-- C3 amended: rate limiting is per call site, not shared: every
invocation of `index_papers_by_topic` allocates a fresh
`RateLimiter(max_calls=3, period=1)` whose instance tags all of that
invocation's paper fetches and which is retired when the invocation
ends (the instance counter advances); `index_medline_plus` allocates
its own instance, used only for its site-URL indexing calls, and its
catalog fetch passes through no limiter at all. -/
theorem claim_C3_rate_limiter_amended (env : Env) (topic : String) (n : Nat) (st : CrawlState)
    (topics : List String) :
    (∀ e, e ∈ (index_papers_by_topic env topic n st).1 →
       ∀ i l, e = Event.paperFetch i l → l = st.next_lim) ∧
    (∀ st2, (index_papers_by_topic env topic n st).2 = Except.ok st2 →
       st2.next_lim = st.next_lim + 1) ∧
    (∀ e, e ∈ (index_medline_plus env topics st).1 →
       ∀ u m l, e = Event.siteIndexUrl u m l → l = st.next_lim) ∧
    limiterOf Event.catalogFetch = none ∧
    rate_limiter_max_calls = 3 ∧ rate_limiter_period = 1 := by
  refine ⟨?_, ?_, ?_, rfl, rfl, rfl⟩
  · intro e he i l hee
    cases hsearch : env.search topic n with
    | error er =>
      rw [ipbt_eq_err env topic n st er hsearch] at he
      rcases List.mem_cons.mp he with h | h
      · subst h
        exact absurd hee (by simp)
      · exact absurd h (List.not_mem_nil e)
    | ok ids =>
      rw [ipbt_eq_ok env topic n st ids hsearch] at he
      rcases List.mem_cons.mp he with h | h
      · subst h
        exact absurd hee (by simp)
      · exact pp_lims env st.next_lim ids.dedup { st with next_lim := st.next_lim + 1 } e h i l hee
  · intro st2 h2
    cases hsearch : env.search topic n with
    | error er =>
      rw [ipbt_eq_err env topic n st er hsearch] at h2
      simp at h2
    | ok ids =>
      rw [ipbt_eq_ok env topic n st ids hsearch] at h2
      simp only at h2
      exact (pp_state_ok env st.next_lim ids.dedup { st with next_lim := st.next_lim + 1 } st2 h2).1
  · intro e he u m l hee
    cases hcat : env.healthCatalog with
    | error er =>
      rw [imp_err env topics st er hcat] at he
      rcases List.mem_cons.mp he with h | h
      · subst h
        exact absurd hee (by simp)
      · exact absurd h (List.not_mem_nil e)
    | ok hts =>
      rw [imp_ok env topics st hts hcat] at he
      rcases List.mem_cons.mp he with h | h
      · subst h
        exact absurd hee (by simp)
      · rcases pht_events env st.next_lim topics hts { st with next_lim := st.next_lim + 1 } e h with
          ⟨doc, hh⟩ | ⟨u2, m2, hh⟩
        · subst hh
          exact absurd hee (by simp)
        · subst hh
          injection hee with a b c
          exact c.symm

/-- C3 witness: after one topic invocation on a state with one
allocated limiter, the instance counter has advanced. -/
theorem claim_C3_witness :
    (⟨["a"], [], 2⟩ : CrawlState).next_lim = (⟨[], [], 1⟩ : CrawlState).next_lim + 1 :=
  (claim_C3_rate_limiter_amended env3 "t1" 1 ⟨[], [], 1⟩ []).2.1 ⟨["a"], [], 2⟩ rfl

/-- C4: in a completed run, an id returned by discovery (once or
twice, within one topic or across topics) whose fetch succeeds with a
200 status and well-formed XML is fetched exactly once and indexed
exactly once. -/
theorem claim_C4_dedup_single_fetch (env : Env) (topics : List String) (n : Nat) (x : String)
    (p : Payload) (root : XmlElem) (st2 : CrawlState)
    (hok : (crawl env topics n).2 = Except.ok st2)
    (hf : env.fetch x = Except.ok p) (hs : p.status = 200) (hb : p.body = some root)
    (hd : discoveredIn env n x topics) :
    countFetch (crawl env topics n).1 x = 1 ∧ countIndex (crawl env topics n).1 x = 1 := by
  cases hI : index_medline_plus env topics ⟨[], [], 0⟩ with
  | mk trM rM =>
    cases rM with
    | error e =>
      rw [crawl_medline_err env topics n e (by rw [hI])] at hok
      simp at hok
    | ok stM =>
      have hM2 : (index_medline_plus env topics ⟨[], [], 0⟩).2 = Except.ok stM := by
        rw [hI]
      rw [crawl_medline_ok env topics n stM hM2] at hok ⊢
      simp only at hok
      have hcr : stM.crawled_pmc_ids = [] := imp_state env topics ⟨[], [], 0⟩ trM stM hI
      have hcm := imp_counts env topics ⟨[], [], 0⟩ trM (Except.ok stM) x hI
      have hxstM : x ∉ stM.crawled_pmc_ids := by
        rw [hcr]
        exact List.not_mem_nil x
      have hct := ct_counts env n x p root hf hs hb topics stM st2 hok
      have h2 := hct.2.1 hxstM hd
      rw [countFetch_append, countIndex_append, hI]
      simp [hcm.1, hcm.2, h2.1, h2.2]

/-- C4 witness: discovery returns the duplicated list
`[100, 100, 101]`; the run fetches and indexes id 100 exactly once. -/
theorem claim_C4_witness :
    countFetch (crawl env4 ["diabetes"] 2).1 "100" = 1 ∧
      countIndex (crawl env4 ["diabetes"] 2).1 "100" = 1 :=
  claim_C4_dedup_single_fetch env4 ["diabetes"] 2 "100" ⟨200, some root0⟩ root0
    ⟨["101", "100"], [], 2⟩ rfl rfl rfl rfl
    ⟨"diabetes", by decide, ["100", "100", "101"], rfl, by decide⟩

/-- C5: the per-item step equations of the paper loop: an id already
seen is skipped outright (never retried within the run); a transport
error or a non-200 status skips the id without marking it seen; a
successful fetch and extraction marks the id seen in the state passed
both to the index call and to the rest of the loop — and the loop's
behaviour is the same for every document-index oracle, so an item whose
indexing fails is still marked seen. -/
theorem claim_C5_seen_set_order (env : Env) (lim : Nat) (st : CrawlState) (pmc_id : String)
    (rest : List String) :
    (pmc_id ∈ st.crawled_pmc_ids →
       processPapers env lim st (pmc_id :: rest) = processPapers env lim st rest) ∧
    (pmc_id ∉ st.crawled_pmc_ids → ∀ e, env.fetch pmc_id = Except.error e →
       processPapers env lim st (pmc_id :: rest) =
         (Event.paperFetch pmc_id lim :: (processPapers env lim st rest).1,
          (processPapers env lim st rest).2)) ∧
    (pmc_id ∉ st.crawled_pmc_ids → ∀ p, env.fetch pmc_id = Except.ok p → p.status ≠ 200 →
       processPapers env lim st (pmc_id :: rest) =
         (Event.paperFetch pmc_id lim :: (processPapers env lim st rest).1,
          (processPapers env lim st rest).2)) ∧
    (pmc_id ∉ st.crawled_pmc_ids → ∀ p root, env.fetch pmc_id = Except.ok p →
       p.status = 200 → p.body = some root →
       processPapers env lim st (pmc_id :: rest) =
         (Event.paperFetch pmc_id lim ::
            Event.paperIndex (assemble_paper_document pmc_id root) ::
            (processPapers env lim
               { st with crawled_pmc_ids := pmc_id :: st.crawled_pmc_ids } rest).1,
          (processPapers env lim
             { st with crawled_pmc_ids := pmc_id :: st.crawled_pmc_ids } rest).2)) ∧
    (∀ (d : Document → Bool) (papers : List String),
       processPapers { env with indexDoc := d } lim st papers =
         processPapers env lim st papers) :=
  ⟨fun h => pp_skip env lim st pmc_id rest h,
   fun h e hf => pp_fetch_err env lim st pmc_id rest e h hf,
   fun h p hf hs => pp_non200 env lim st pmc_id rest p h hf hs,
   fun h p root hf hs hb => pp_success env lim st pmc_id rest p root h hf hs hb,
   fun d papers => pp_indexDoc_indep env d lim papers st⟩

/-- C5 witness: the success equation at a concrete id, showing the id
entering the seen set before the loop goes on, with an index oracle
that rejects the document. -/
theorem claim_C5_witness :
    processPapers env5 1 ⟨[], [], 2⟩ ["100"] =
      (Event.paperFetch "100" 1 ::
         Event.paperIndex (assemble_paper_document "100" root0) ::
         (processPapers env5 1 ⟨["100"], [], 2⟩ []).1,
       (processPapers env5 1 ⟨["100"], [], 2⟩ []).2) :=
  (claim_C5_seen_set_order env5 1 ⟨[], [], 2⟩ "100" []).2.2.2.1
    (by decide) ⟨200, some root0⟩ root0 rfl rfl rfl

/-- C9 counterexample: when document indexing of a health topic returns
false, the topic's site links are skipped (`continue`): the failing run
has no siteIndexUrl event, while the identical run with a succeeding
index oracle has one — site-link processing is affected by the failed
index call, refuting the claim. -/
theorem claim_C9_counterexample :
    (crawl env9 ["diabetes"] 1).1 =
      [Event.catalogFetch, Event.medlineIndex (assemble_medline_document (fun s => s) ht9),
       Event.searchCall "diabetes"] ∧
    (crawl env9T ["diabetes"] 1).1 =
      [Event.catalogFetch, Event.medlineIndex (assemble_medline_document (fun s => s) ht9),
       Event.siteIndexUrl "site9.example" (site_url_metadata site9) 0,
       Event.searchCall "diabetes"] :=
  ⟨rfl, rfl⟩

/-- C9 amended: a false result from an index call is never retried and
never aborts anything, but it is not fully ignored either: on the
health-topic path a false from indexDocument makes the loop `continue`,
skipping that topic's site links (later topics are unaffected); on the
paper path the loop never consults index results at all, and an id
already marked seen is never indexed again within the run. -/
theorem claim_C9_index_failure_amended (env : Env) (lim : Nat) (topics : List String)
    (st : CrawlState) (ht : HealthTopic) (rest : List HealthTopic) :
    (matches_topics ht topics = true →
       env.indexDoc (assemble_medline_document env.htmlToText ht) = false →
       processHealthTopics env lim topics st (ht :: rest) =
         (Event.medlineIndex (assemble_medline_document env.htmlToText ht) ::
            (processHealthTopics env lim topics st rest).1,
          (processHealthTopics env lim topics st rest).2)) ∧
    (∀ (d : Document → Bool) (papers : List String),
       processPapers { env with indexDoc := d } lim st papers =
         processPapers env lim st papers) ∧
    (∀ (x : String) (papers : List String), x ∈ st.crawled_pmc_ids →
       countIndex (processPapers env lim st papers).1 x = 0) :=
  ⟨fun hm hd => pht_docfail env lim topics st ht rest hm hd,
   fun d papers => pp_indexDoc_indep env d lim papers st,
   fun x papers hx => (pp_count_seen env lim papers st x hx).2⟩

/-- C9 witness: the amended skip equation at the concrete failing
health topic. -/
theorem claim_C9_witness :
    processHealthTopics env9 0 ["diabetes"] ⟨[], [], 1⟩ [ht9] =
      (Event.medlineIndex (assemble_medline_document env9.htmlToText ht9) ::
         (processHealthTopics env9 0 ["diabetes"] ⟨[], [], 1⟩ []).1,
       (processHealthTopics env9 0 ["diabetes"] ⟨[], [], 1⟩ []).2) :=
  (claim_C9_index_failure_amended env9 0 ["diabetes"] ⟨[], [], 1⟩ ht9 []).1 (by decide) rfl

/-- C10: every health-topic document is assembled with metadata source
`pmc` — the same label as paper documents — while the site links of the
same topic are indexed with metadata source `medline_plus`; the two
labels disagree. -/
theorem claim_C10_source_labels (f : String → String) (ht : HealthTopic) (s : Site)
    (pmc_id : String) (root : XmlElem) :
    (assemble_medline_document f ht).metadataJson.source = "pmc" ∧
    (assemble_paper_document pmc_id root).metadataJson.source = "pmc" ∧
    (site_url_metadata s).source = "medline_plus" ∧
    (assemble_medline_document f ht).metadataJson.source ≠ (site_url_metadata s).source := by
  refine ⟨rfl, rfl, rfl, ?_⟩
  show ("pmc" : String) ≠ "medline_plus"
  decide

end PmcCrawler
